import Mathlib

/-!
Verification of the greedy-dhcp orchestrator (`main.go`) against its
natural-language specification.  The Go program selects a network
interface, splits the `TARGET_ADDRS` environment variable on commas,
spawns one DHCP lease-acquisition goroutine (`runClient`) per target
address, and shuts all of them down on a termination signal.

The embedding below translates the relevant Go functions into Lean:
pure control flow becomes Lean functions, the goroutine/WaitGroup
shutdown protocol becomes a small labelled transition system, and the
metric bindings described only by the spec (absent from the source under
`src/`) are modelled from the spec's words where a claim needs them.
-/

namespace GreedyDhcp

/-- A host network interface as `getInterface` observes it: name, the
two flags the code inspects (`net.FlagUp`, `net.FlagLoopback`), and the
result of calling `iface.Addrs()` (which can fail). -/
structure Iface where
  name : String
  up : Bool
  loopback : Bool
  addrs : Except String (List String)

/-- The loop body of `getInterface` (main.go lines 121-136): skip an
interface that is not up or is loopback; ask for its addresses and abort
with a wrapped error if that fails; skip it when it has no addresses;
otherwise return it. -/
def findIface : List Iface → Except String Iface
  | [] => Except.error "unable to find interface"
  | i :: rest =>
    if !i.up || i.loopback then findIface rest
    else
      match i.addrs with
      | Except.error e =>
          Except.error ("unable to get addrs for iface " ++ i.name ++ ": " ++ e)
      | Except.ok as =>
          if as.length = 0 then findIface rest else Except.ok i

/-- `getInterface` (main.go lines 115-139): propagate a failure of
`net.Interfaces()` unchanged, otherwise scan the enumerated interfaces
in order. -/
def getInterface (enum : Except String (List Iface)) : Except String Iface :=
  match enum with
  | Except.error e => Except.error e
  | Except.ok l => findIface l

/-- An interface satisfying all three filters of `getInterface`:
administratively up, not loopback, and with a successfully listed,
non-empty address list. -/
def goodIface (i : Iface) : Bool :=
  i.up && !i.loopback &&
    (match i.addrs with
     | Except.ok as => !as.isEmpty
     | Except.error _ => false)

/-- Helper for `stringsSplit`: walk the characters, accumulating the
current field in reverse, emitting a field at each separator. -/
def splitCharAux (sep : Char) : List Char → List Char → List String
  | [], acc => [String.mk acc.reverse]
  | c :: cs, acc =>
    if c = sep then String.mk acc.reverse :: splitCharAux sep cs []
    else splitCharAux sep cs (c :: acc)

/-- Go's `strings.Split` for a one-character separator (the program only
ever splits on `","` and `"."`): the fields between separators, in
order; splitting the empty string yields one empty field, and adjacent
separators yield empty fields, exactly as in Go. -/
def stringsSplit (s : String) (sep : Char) : List String :=
  splitCharAux sep s.toList []

/-- The per-target loop of `main` (main.go lines 207-217) applied to the
already-split target list: for each element in order, exit fatally on an
empty element, otherwise start a session for it.  Returns the list of
targets for which a session goroutine was started before returning or
exiting, and whether a fatal exit happened. -/
def spawnLoop : List String → List String × Bool
  | [] => ([], false)
  | t :: rest =>
    if t = "" then ([], true)
    else
      let r := spawnLoop rest
      (t :: r.1, r.2)

/-- Outcome of `main` (main.go lines 184-229) up to the signal wait:
either a fatal exit because no interface was found, a fatal exit because
the configuration was absent or contained an empty element (recording
the sessions already started at that point), or the steady state in
which all sessions run until a termination signal arrives and the
process later exits gracefully. -/
inductive MainOutcome where
  | fatalIface (e : String)
  | fatalConfig (started : List String)
  | running (started : List String)
deriving DecidableEq

/-- `main` (main.go lines 184-229), parameterised by the result of
interface enumeration and by the `TARGET_ADDRS` configuration string:
fatal exit when `getInterface` fails; fatal exit when the configuration
is the empty string; otherwise split on commas and run the spawn loop,
which may itself exit fatally on an empty element. -/
def mainRun (enum : Except String (List Iface)) (targetAddrsStr : String) :
    MainOutcome :=
  match getInterface enum with
  | Except.error e => MainOutcome.fatalIface e
  | Except.ok _ =>
    if targetAddrsStr = "" then MainOutcome.fatalConfig []
    else
      let targets := stringsSplit targetAddrsStr ','
      let r := spawnLoop targets
      if r.2 then MainOutcome.fatalConfig r.1 else MainOutcome.running r.1

/-- Process exit code for each outcome: `os.Exit(1)` on the fatal paths,
0 when `main` returns normally after the signal wait. -/
def exitCode : MainOutcome → Nat
  | MainOutcome.fatalIface _ => 1
  | MainOutcome.fatalConfig _ => 1
  | MainOutcome.running _ => 0

/-- The target addresses for which a Lease Session goroutine was started
(`wg.Add(1); go runClient(...)`) in the given outcome. -/
def startedSessions : MainOutcome → List String
  | MainOutcome.fatalIface _ => []
  | MainOutcome.fatalConfig s => s
  | MainOutcome.running s => s

/-- One octet of a dotted-decimal IPv4 address, as Go's address parser
accepts it (`net.ParseIP`, Go 1.21): one to three ASCII digits, value at
most 255, and no leading zero. -/
def parseOctet (f : String) : Option Nat :=
  let cs := f.toList
  if cs.length = 0 || 3 < cs.length then none
  else if !cs.all Char.isDigit then none
  else if 1 < cs.length && cs.head? = some '0' then none
  else
    let v := cs.foldl (fun acc c => acc * 10 + (c.toNat - 48)) 0
    if v ≤ 255 then some v else none

/-- Models the composite `net.ParseIP(s).To4()` used at main.go lines
164-166: the four octet values when `s` is a dotted-decimal IPv4
address, and `none` (Go `nil`) otherwise.  `ParseIP` also accepts IPv6
literals, on which `To4` returns `nil` again, so only the dotted-decimal
path produces a non-nil 4-byte value; the IPv4-mapped IPv6 spelling of
an address is not distinguished here. -/
def parseIPTo4 (s : String) : Option (List Nat) :=
  match (stringsSplit s '.').mapM parseOctet with
  | some [a, b, c, d] => some [a, b, c, d]
  | _ => none

/-- `layers.DHCPOptRequestIP`: DHCP option 50, requested IP address. -/
def dhcpOptRequestIP : Nat := 50

/-- Observable actions of one Lease Session, in program order.
`initMetrics` occurs only in the spec's metrics variant. -/
inductive Action where
  | initMetrics (target : String)
  | addParamRequest (p : Nat)
  | addOption (code : Nat) (val : Option (List Nat))
  | clientStart
  | awaitCancel
  | clientStop
  | wgDone
  | exitProcess (code : Nat)
deriving DecidableEq

/-- The straight-line action trace of `runClient` (main.go lines
141-177) for one full run, parameterised by the external
`dhclient.DefaultParamsRequestList` (a list of DHCP option codes): add
each default parameter request, add option 50 with the (possibly nil)
parse of the target address, start the client, block on cancellation,
then — via the deferred functions, innermost first — stop the client and
mark the wait group done.  `runClient` contains no exit and returns no
error. -/
def runClientTrace (params : List Nat) (t : String) : List Action :=
  params.map Action.addParamRequest ++
    [Action.addOption dhcpOptRequestIP (parseIPTo4 t),
     Action.clientStart, Action.awaitCancel,
     Action.clientStop, Action.wgDone]

/-- Per-target metric state: the three counters and the expiry gauge of
the spec's Metric Bindings. -/
structure Metrics where
  acquired : Nat
  expired : Nat
  failed : Nat
  gauge : Int
deriving DecidableEq

/-- Modelled from the spec: the zero/zero/zero/zero initial value of the
four Metric Bindings (spec section 4.2 step 1); the metric-binding code
itself is not present under `src/`. -/
def metricsInit : Metrics :=
  Metrics.mk 0 0 0 0

/-- Modelled from the spec: the metrics-variant Lease Session
(`runSession`, spec section 4.2), whose implementation is not present
under `src/`: identical to `runClient` except that the four Metric
Bindings for the target are initialised first, before the protocol
client is constructed and started. -/
def runSessionActions (params : List Nat) (t : String) : List Action :=
  Action.initMetrics t :: runClientTrace params t

/-- A granted lease as the callbacks observe it: the assigned address
and the expiry instant as a Unix timestamp. -/
structure Lease where
  fixedAddress : String
  expireUnix : Int
deriving DecidableEq

/-- A delivery into one session's metric context: a bound callback with
a lease, an expire callback with an optional lease, or a read of the
metrics endpoint. -/
inductive SessionEvent where
  | bound (l : Lease)
  | expire (l : Option Lease)
  | metricsRead
deriving DecidableEq

/-- Modelled from the spec: the effect of one delivery on a session's
Metric Bindings (spec section 4.2 step 3; the metric-update code is not
present under `src/`).  on-bound increments `acquired_total` and sets
the expiry gauge to the lease's expiry Unix timestamp; on-expire with an
absent lease increments `failed_total`; on-expire with a present lease
increments `expired_total`; a metrics read changes nothing. -/
def deliver : SessionEvent → Metrics → Metrics
  | SessionEvent.bound l, m =>
      Metrics.mk (m.acquired + 1) m.expired m.failed l.expireUnix
  | SessionEvent.expire none, m =>
      Metrics.mk m.acquired m.expired (m.failed + 1) m.gauge
  | SessionEvent.expire (some _), m =>
      Metrics.mk m.acquired (m.expired + 1) m.failed m.gauge
  | SessionEvent.metricsRead, m => m

/-- Phase of one session goroutine during shutdown: still blocked on
`<-ctx.Done()`, past the deferred `client.Stop()`, or past the deferred
`wg.Done()`. -/
inductive SPhase where
  | running
  | stopped
  | done
deriving DecidableEq

/-- One session goroutine's shutdown-relevant state: its phase and how
many times it has invoked `client.Stop()`. -/
structure Sess where
  phase : SPhase
  stops : Nat
deriving DecidableEq

/-- Phase of the main goroutine: blocked on the signal channel, past
`cancel()` and blocked on `wg.Wait()`, or returned from `main`
(process exit). -/
inductive MPhase where
  | waiting
  | cancelledW
  | exited
deriving DecidableEq

/-- Shutdown-time state of the whole process: whether `cancel()` has
been called on the shared context, the per-session states, and the main
goroutine's phase. -/
structure Sys where
  cancelled : Bool
  sessions : List Sess
  mphase : MPhase
deriving DecidableEq

/-- Interleaved execution of `main` (lines 219-229) and the started
`runClient` goroutines (lines 171-177) after startup:
a termination signal makes main break its loop and call `cancel()`; a
session whose context is cancelled runs its deferred `client.Stop()`
once; a session past `Stop()` runs its deferred `wg.Done()`; main
returns only once `wg.Wait()` sees every session done. -/
inductive Step : Sys → Sys → Prop where
  | signal (s : Sys) :
      s.mphase = MPhase.waiting →
      Step s (Sys.mk true s.sessions MPhase.cancelledW)
  | stop (s : Sys) (i : Nat) (x : Sess) :
      s.cancelled = true →
      s.sessions.get? i = some x →
      x.phase = SPhase.running →
      Step s (Sys.mk s.cancelled
        (s.sessions.set i (Sess.mk SPhase.stopped (x.stops + 1))) s.mphase)
  | finish (s : Sys) (i : Nat) (x : Sess) :
      s.sessions.get? i = some x →
      x.phase = SPhase.stopped →
      Step s (Sys.mk s.cancelled
        (s.sessions.set i (Sess.mk SPhase.done x.stops)) s.mphase)
  | exit (s : Sys) :
      s.mphase = MPhase.cancelledW →
      (∀ x ∈ s.sessions, x.phase = SPhase.done) →
      Step s (Sys.mk s.cancelled s.sessions MPhase.exited)

/-- Initial shutdown-time state once `main` has started `n` sessions:
nothing cancelled, every session blocked with zero stop calls, main
blocked on the signal channel. -/
def initSys (n : Nat) : Sys :=
  Sys.mk false (List.replicate n (Sess.mk SPhase.running 0)) MPhase.waiting

/-- Reachability in the shutdown transition system. -/
def Reaches (s t : Sys) : Prop :=
  Relation.ReflTransGen Step s t

/-- Inductive invariant of the shutdown system: session count is
preserved; a still-running session has not called `Stop()`, any other
session has called it exactly once; and main has exited only if every
session is done. -/
def ShutdownInv (n : Nat) (s : Sys) : Prop :=
  s.sessions.length = n ∧
  (∀ x ∈ s.sessions,
    (x.phase = SPhase.running ∧ x.stops = 0) ∨
    (x.phase ≠ SPhase.running ∧ x.stops = 1)) ∧
  (s.mphase = MPhase.exited → ∀ x ∈ s.sessions, x.phase = SPhase.done)

/-- A loopback interface fixture for concrete runs. -/
def loIface : Iface :=
  Iface.mk "lo" true true (Except.ok ["127.0.0.1/8"])

/-- An up, non-loopback interface fixture with one bound address. -/
def eth0 : Iface :=
  Iface.mk "eth0" true false (Except.ok ["10.0.0.2/24"])

/-- A successful interface enumeration fixture: loopback first, then a
qualifying interface. -/
def enumOK : Except String (List Iface) :=
  Except.ok [loIface, eth0]

/-- Whether `iface.Addrs()` succeeds for this interface. -/
def addrsOk (i : Iface) : Bool :=
  match i.addrs with
  | Except.ok _ => true
  | Except.error _ => false

/-- An interface that `getInterface` skips without returning: either
filtered out by its flags, or with a successfully listed but empty
address list. -/
def skippedIface (i : Iface) : Bool :=
  (!i.up || i.loopback) ||
    (match i.addrs with
     | Except.ok as => as.isEmpty
     | Except.error _ => false)

/-- An up, non-loopback interface fixture whose address listing fails. -/
def badEth : Iface :=
  Iface.mk "eth1" true false (Except.error "permission denied")

/-- When no element of the target list is empty, the spawn loop starts
one session per element, in order, and does not exit. -/
theorem spawnLoop_of_not_mem (l : List String) (h : "" ∉ l) :
    spawnLoop l = (l, false) := by
  induction l with
  | nil => rfl
  | cons t rest ih =>
    have ht : t ≠ "" := fun e => h (by simp [e])
    have hr : "" ∉ rest := fun hm => h (List.mem_cons_of_mem _ hm)
    simp [spawnLoop, ht, ih hr]

/-- When some element of the target list is empty, the spawn loop starts
sessions exactly for the elements strictly before the first empty
element, then exits fatally. -/
theorem spawnLoop_of_mem (l : List String) (h : "" ∈ l) :
    spawnLoop l = (l.takeWhile (fun t => t != ""), true) := by
  induction l with
  | nil => cases h
  | cons t rest ih =>
    by_cases ht : t = ""
    · subst ht
      simp [spawnLoop, List.takeWhile_cons]
    · have hr : "" ∈ rest := by
        cases List.mem_cons.mp h with
        | inl he => exact absurd he.symm ht
        | inr hm => exact hm
      simp [spawnLoop, ht, ih hr, List.takeWhile_cons]

/-- For a valid configuration (non-empty, no empty element) and a
selected interface, the started sessions are exactly the comma-split
elements. -/
theorem mainRun_started_of_valid (enum : Except String (List Iface))
    (i : Iface) (cfg : String)
    (hi : getInterface enum = Except.ok i)
    (hne : cfg ≠ "")
    (hall : ∀ t ∈ stringsSplit cfg ',', t ≠ "") :
    startedSessions (mainRun enum cfg) = stringsSplit cfg ',' := by
  have hnm : "" ∉ stringsSplit cfg ',' := fun hm => hall _ hm rfl
  simp [mainRun, hi, hne, spawnLoop_of_not_mem _ hnm, startedSessions]

/-- C1 counterexample: with a working interface and configuration
`"10.0.0.5,"` — whose split contains an empty element — the process does
exit fatally, but a session for `"10.0.0.5"` has already been started,
so the claim's "zero sessions run" is false. -/
theorem c1_sessions_before_fatal_cex :
    ("" ∈ stringsSplit "10.0.0.5," ',') ∧
    exitCode (mainRun enumOK "10.0.0.5,") = 1 ∧
    startedSessions (mainRun enumOK "10.0.0.5,") ≠ [] := by
  refine ⟨by decide, by decide, by decide⟩

/-- C1 (amended): if the configuration is empty or its comma-split
contains an empty element, the process exits fatally with code 1, and
sessions have been started exactly for the elements strictly preceding
the first empty element (none when the configuration is the empty
string). -/
theorem c1_fatal_exit_on_empty_element (enum : Except String (List Iface))
    (i : Iface) (cfg : String)
    (hi : getInterface enum = Except.ok i)
    (h : cfg = "" ∨ "" ∈ stringsSplit cfg ',') :
    exitCode (mainRun enum cfg) = 1 ∧
    startedSessions (mainRun enum cfg) =
      (if cfg = "" then []
       else (stringsSplit cfg ',').takeWhile (fun t => t != "")) := by
  by_cases hc : cfg = ""
  · simp [mainRun, hi, hc, exitCode, startedSessions]
  · have hm : "" ∈ stringsSplit cfg ',' := h.resolve_left hc
    simp [mainRun, hi, hc, spawnLoop_of_mem _ hm, exitCode, startedSessions]

/-- C1 witness: the amended statement at interface enumeration `enumOK`
and configuration `"10.0.0.5,"`. -/
theorem c1_fatal_exit_on_empty_element_witness :
    exitCode (mainRun enumOK "10.0.0.5,") = 1 ∧
    startedSessions (mainRun enumOK "10.0.0.5,") =
      (if "10.0.0.5," = "" then []
       else (stringsSplit "10.0.0.5," ',').takeWhile (fun t => t != "")) :=
  c1_fatal_exit_on_empty_element enumOK eth0 "10.0.0.5," rfl
    (Or.inr (by decide))

/-- C2: for a configuration whose comma-split has no empty element, the
started sessions are exactly the split elements, in order — duplicates
included — so their number equals the number of elements. -/
theorem c2_sessions_equal_split (enum : Except String (List Iface))
    (i : Iface) (cfg : String)
    (hi : getInterface enum = Except.ok i)
    (hne : cfg ≠ "")
    (hall : ∀ t ∈ stringsSplit cfg ',', t ≠ "") :
    startedSessions (mainRun enum cfg) = stringsSplit cfg ',' ∧
    (startedSessions (mainRun enum cfg)).length =
      (stringsSplit cfg ',').length := by
  have h1 := mainRun_started_of_valid enum i cfg hi hne hall
  exact ⟨h1, by rw [h1]⟩

/-- C2 witness: configuration `"10.0.0.5,10.0.0.6,10.0.0.5"` (with a
duplicate) starts three sessions, one per element. -/
theorem c2_sessions_equal_split_witness :
    startedSessions (mainRun enumOK "10.0.0.5,10.0.0.6,10.0.0.5") =
      stringsSplit "10.0.0.5,10.0.0.6,10.0.0.5" ',' ∧
    (startedSessions (mainRun enumOK "10.0.0.5,10.0.0.6,10.0.0.5")).length =
      (stringsSplit "10.0.0.5,10.0.0.6,10.0.0.5" ',').length :=
  c2_sessions_equal_split enumOK eth0 "10.0.0.5,10.0.0.6,10.0.0.5" rfl
    (by decide) (by decide)

/-- C8: the process exits with code 0 exactly when startup succeeded
(an interface was selected, the configuration is non-empty and contains
no empty element) and shutdown proceeds gracefully; every fatal startup
failure exits non-zero. -/
theorem c8_exit_zero_iff_graceful (enum : Except String (List Iface))
    (cfg : String) :
    exitCode (mainRun enum cfg) = 0 ↔
      ((∃ i, getInterface enum = Except.ok i) ∧ cfg ≠ "" ∧
        ∀ t ∈ stringsSplit cfg ',', t ≠ "") := by
  cases hE : getInterface enum with
  | error e =>
    constructor
    · intro h0
      simp [mainRun, hE, exitCode] at h0
    · rintro ⟨⟨i, hi⟩, -, -⟩
      cases hi
  | ok i =>
    by_cases hc : cfg = ""
    · simp [mainRun, hE, hc, exitCode]
    · by_cases hm : "" ∈ stringsSplit cfg ','
      · constructor
        · intro h0
          simp [mainRun, hE, hc, spawnLoop_of_mem _ hm, exitCode] at h0
        · rintro ⟨-, -, hall⟩
          exact absurd rfl (hall _ hm)
      · constructor
        · intro _
          exact ⟨⟨i, rfl⟩, hc, fun t ht he => hm (he ▸ ht)⟩
        · intro _
          simp [mainRun, hE, hc, spawnLoop_of_not_mem _ hm, exitCode]

/-- `findIface` on a list whose interfaces all have listable addresses
returns the first interface passing all three filters, or the
no-interface error when none passes. -/
theorem findIface_eq_find (l : List Iface) (h : ∀ i ∈ l, addrsOk i = true) :
    findIface l =
      (match l.find? goodIface with
       | some i => Except.ok i
       | none => Except.error "unable to find interface") := by
  induction l with
  | nil => rfl
  | cons i rest ih =>
    have hi : addrsOk i = true := h i (List.mem_cons_self i rest)
    have hrest : ∀ j ∈ rest, addrsOk j = true :=
      fun j hj => h j (List.mem_cons_of_mem _ hj)
    by_cases hskip : (!i.up || i.loopback) = true
    · have hg : goodIface i = false := by
        cases hu : i.up
        · simp [goodIface, hu]
        · cases hl : i.loopback
          · simp [hu, hl] at hskip
          · simp [goodIface, hu, hl]
      simp only [findIface, if_pos hskip, List.find?_cons, hg, ih hrest]
    · have hup : i.up = true := by
        cases hu : i.up
        · exact absurd (by simp [hu]) hskip
        · rfl
      have hlo : i.loopback = false := by
        cases hl : i.loopback
        · rfl
        · exact absurd (by simp [hl]) hskip
      cases ha : i.addrs with
      | error e => rw [addrsOk, ha] at hi; cases hi
      | ok as =>
        by_cases hlen : as.length = 0
        · have hg : goodIface i = false := by
            have hemp : as.isEmpty = true := by
              cases as
              · rfl
              · cases hlen
            simp [goodIface, hup, hlo, ha, hemp]
          simp only [findIface, if_neg hskip, ha, if_pos hlen,
            List.find?_cons, hg, ih hrest]
        · have hg : goodIface i = true := by
            have hemp : as.isEmpty = false := by
              cases as
              · cases hlen rfl
              · rfl
            simp [goodIface, hup, hlo, ha, hemp]
          simp only [findIface, if_neg hskip, ha, if_neg hlen,
            List.find?_cons, hg]

/-- C4: when every enumerated interface's address listing succeeds,
`getInterface` returns the first interface that is up, not loopback and
has at least one address, and errors when none qualifies; a failure of
the enumeration itself is propagated as an error. -/
theorem c4_first_qualifying_interface (l : List Iface)
    (h : ∀ i ∈ l, addrsOk i = true) :
    (getInterface (Except.ok l) =
      match l.find? goodIface with
      | some i => Except.ok i
      | none => Except.error "unable to find interface") ∧
    (∀ e, getInterface (Except.error e) = Except.error e) :=
  ⟨findIface_eq_find l h, fun _ => rfl⟩

/-- C4 witness: enumeration yielding a loopback interface followed by a
qualifying one selects the qualifying one. -/
theorem c4_first_qualifying_interface_witness :
    (getInterface (Except.ok [loIface, eth0]) =
      match [loIface, eth0].find? goodIface with
      | some i => Except.ok i
      | none => Except.error "unable to find interface") ∧
    (∀ e, getInterface (Except.error e) = Except.error e) :=
  c4_first_qualifying_interface [loIface, eth0] (by decide)

/-- `findIface` ignores a prefix of interfaces it skips (wrong flags, or
empty address list). -/
theorem findIface_append_skip (pre l : List Iface)
    (hpre : ∀ i ∈ pre, skippedIface i = true) :
    findIface (pre ++ l) = findIface l := by
  induction pre with
  | nil => rfl
  | cons i rest ih =>
    have hi : skippedIface i = true := hpre i (List.mem_cons_self i rest)
    have hrest : ∀ j ∈ rest, skippedIface j = true :=
      fun j hj => hpre j (List.mem_cons_of_mem _ hj)
    by_cases hskip : (!i.up || i.loopback) = true
    · simp only [List.cons_append, findIface, if_pos hskip]
      exact ih hrest
    · have hemp : (match i.addrs with
          | Except.ok as => as.isEmpty
          | Except.error _ => false) = true := by
        rw [skippedIface, Bool.or_eq_true] at hi
        cases hi with
        | inl h2 => exact absurd h2 hskip
        | inr h2 => exact h2
      cases ha : i.addrs with
      | error e => rw [ha] at hemp; cases hemp
      | ok as =>
        rw [ha] at hemp
        have hlen : as.length = 0 := by
          cases as
          · rfl
          · cases hemp
        simp only [List.cons_append, findIface, if_neg hskip, ha,
          if_pos hlen]
        exact ih hrest

/-- C10: if the first non-skipped candidate's address listing fails,
`getInterface` aborts with the wrapped error, whatever interfaces follow
it in enumeration order. -/
theorem c10_addrs_failure_aborts (pre : List Iface) (bad : Iface)
    (post : List Iface) (e : String)
    (hpre : ∀ i ∈ pre, skippedIface i = true)
    (hup : bad.up = true) (hlo : bad.loopback = false)
    (haddr : bad.addrs = Except.error e) :
    getInterface (Except.ok (pre ++ bad :: post)) =
      Except.error ("unable to get addrs for iface " ++ bad.name ++ ": "
        ++ e) := by
  show findIface (pre ++ bad :: post) = _
  rw [findIface_append_skip pre _ hpre]
  simp [findIface, hup, hlo, haddr]

/-- C10 witness: after a skipped loopback interface, a candidate with a
failing address listing aborts selection even though the qualifying
`eth0` comes right after it. -/
theorem c10_addrs_failure_aborts_witness :
    goodIface eth0 = true ∧
    getInterface (Except.ok ([loIface] ++ badEth :: [eth0])) =
      Except.error ("unable to get addrs for iface " ++ badEth.name ++
        ": " ++ "permission denied") :=
  ⟨by decide,
   c10_addrs_failure_aborts [loIface] badEth [eth0] "permission denied"
     (by decide) rfl rfl rfl⟩

/-- C9: startup validates only non-emptiness — every element of a valid
split gets a session, parseable as IPv4 or not — and inside a session
the requested-address option is added with the (possibly nil) parse
result; `runClient` contains no exit action for any target. -/
theorem c9_no_address_validation (params : List Nat)
    (enum : Except String (List Iface)) (i : Iface) (cfg : String)
    (hi : getInterface enum = Except.ok i)
    (hne : cfg ≠ "")
    (hall : ∀ t ∈ stringsSplit cfg ',', t ≠ "") :
    startedSessions (mainRun enum cfg) = stringsSplit cfg ',' ∧
    ∀ t ∈ stringsSplit cfg ',',
      Action.addOption dhcpOptRequestIP (parseIPTo4 t) ∈
        runClientTrace params t ∧
      ∀ c, Action.exitProcess c ∉ runClientTrace params t := by
  refine ⟨mainRun_started_of_valid enum i cfg hi hne hall, fun t _ => ⟨?_, ?_⟩⟩
  · simp [runClientTrace]
  · intro c hmem
    simp [runClientTrace] at hmem

/-- C9 witness: the unparseable target `"banana"` still gets its own
session next to `"10.0.0.7"`, and its requested-address option value is
nil. -/
theorem c9_no_address_validation_witness :
    parseIPTo4 "banana" = none ∧
    (startedSessions (mainRun enumOK "banana,10.0.0.7") =
      stringsSplit "banana,10.0.0.7" ',' ∧
    ∀ t ∈ stringsSplit "banana,10.0.0.7" ',',
      Action.addOption dhcpOptRequestIP (parseIPTo4 t) ∈
        runClientTrace [1, 3, 6] t ∧
      ∀ c, Action.exitProcess c ∉ runClientTrace [1, 3, 6] t) :=
  ⟨by decide,
   c9_no_address_validation [1, 3, 6] enumOK eth0 "banana,10.0.0.7" rfl
     (by decide) (by decide)⟩

/-- C5: a bound callback with lease `l` increments `acquired_total` by
exactly 1 and sets the expiry gauge to `l`'s expiry Unix timestamp,
while any delivery that is not a bound callback (an expire callback or a
metrics read) leaves both of them unchanged. -/
theorem c5_bound_callback (l : Lease) (m : Metrics) (e : SessionEvent)
    (he : ∀ l2, e ≠ SessionEvent.bound l2) :
    (deliver (SessionEvent.bound l) m).acquired = m.acquired + 1 ∧
    (deliver (SessionEvent.bound l) m).gauge = l.expireUnix ∧
    (deliver e m).acquired = m.acquired ∧
    (deliver e m).gauge = m.gauge := by
  refine ⟨rfl, rfl, ?_, ?_⟩
  · cases e with
    | bound l2 => exact absurd rfl (he l2)
    | expire l2 => cases l2 <;> rfl
    | metricsRead => rfl
  · cases e with
    | bound l2 => exact absurd rfl (he l2)
    | expire l2 => cases l2 <;> rfl
    | metricsRead => rfl

/-- C5 witness: a concrete bound callback on the zero metric state, with
a metrics read as the non-bound delivery. -/
theorem c5_bound_callback_witness :
    (deliver (SessionEvent.bound (Lease.mk "10.0.0.5" 3600))
        metricsInit).acquired = metricsInit.acquired + 1 ∧
    (deliver (SessionEvent.bound (Lease.mk "10.0.0.5" 3600))
        metricsInit).gauge = (Lease.mk "10.0.0.5" 3600).expireUnix ∧
    (deliver SessionEvent.metricsRead metricsInit).acquired =
      metricsInit.acquired ∧
    (deliver SessionEvent.metricsRead metricsInit).gauge =
      metricsInit.gauge :=
  c5_bound_callback (Lease.mk "10.0.0.5" 3600) metricsInit
    SessionEvent.metricsRead (by intro l2 h2; cases h2)

/-- C6: an expire callback with an absent lease increments
`failed_total` by exactly 1 and leaves `acquired_total`,
`expired_total` and the expiry gauge unchanged. -/
theorem c6_expire_absent_lease (m : Metrics) :
    (deliver (SessionEvent.expire none) m).failed = m.failed + 1 ∧
    (deliver (SessionEvent.expire none) m).acquired = m.acquired ∧
    (deliver (SessionEvent.expire none) m).expired = m.expired ∧
    (deliver (SessionEvent.expire none) m).gauge = m.gauge :=
  ⟨rfl, rfl, rfl, rfl⟩

/-- C7: in a session, the Metric Bindings for the target are created —
exactly once, initialized to zero/zero/zero/zero — strictly before the
protocol client is started, and for a valid configuration exactly one
session (hence one complete binding set) exists per configured target. -/
theorem c7_metrics_init_before_start (params : List Nat) (t : String)
    (enum : Except String (List Iface)) (i : Iface) (cfg : String)
    (hi : getInterface enum = Except.ok i)
    (hne : cfg ≠ "")
    (hall : ∀ t2 ∈ stringsSplit cfg ',', t2 ≠ "") :
    metricsInit = Metrics.mk 0 0 0 0 ∧
    (runSessionActions params t).count (Action.initMetrics t) = 1 ∧
    (runSessionActions params t).indexOf (Action.initMetrics t) <
      (runSessionActions params t).indexOf Action.clientStart ∧
    startedSessions (mainRun enum cfg) = stringsSplit cfg ',' := by
  refine ⟨rfl, ?_, ?_, mainRun_started_of_valid enum i cfg hi hne hall⟩
  · have hz : (runClientTrace params t).count (Action.initMetrics t) = 0 := by
      rw [List.count_eq_zero]
      simp [runClientTrace]
    rw [runSessionActions, List.count_cons_self, hz]
  · have h0 : (runSessionActions params t).indexOf (Action.initMetrics t)
        = 0 := List.indexOf_cons_self _ _
    have h1 : (runSessionActions params t).indexOf Action.clientStart =
        (runClientTrace params t).indexOf Action.clientStart + 1 :=
      List.indexOf_cons_ne _ (by simp)
    rw [h0, h1]
    exact Nat.succ_pos _

/-- C7 witness: the session for `"10.0.0.5"` with three default
parameters initializes its bindings once, before the client start, and
the single configured target yields the single session. -/
theorem c7_metrics_init_before_start_witness :
    metricsInit = Metrics.mk 0 0 0 0 ∧
    (runSessionActions [1, 3, 6] "10.0.0.5").count
      (Action.initMetrics "10.0.0.5") = 1 ∧
    (runSessionActions [1, 3, 6] "10.0.0.5").indexOf
        (Action.initMetrics "10.0.0.5") <
      (runSessionActions [1, 3, 6] "10.0.0.5").indexOf Action.clientStart ∧
    startedSessions (mainRun enumOK "10.0.0.5") =
      stringsSplit "10.0.0.5" ',' :=
  c7_metrics_init_before_start [1, 3, 6] "10.0.0.5" enumOK eth0 "10.0.0.5"
    rfl (by decide) (by decide)

/-- One step of the shutdown system preserves the shutdown invariant. -/
theorem shutdownInv_step (n : Nat) (s t : Sys)
    (hs : ShutdownInv n s) (hst : Step s t) : ShutdownInv n t := by
  obtain ⟨hlen, hstops, hexit⟩ := hs
  cases hst with
  | signal hw =>
    refine ⟨hlen, hstops, ?_⟩
    intro hex
    cases hex
  | stop i x hc hgi hph =>
    have hxmem : x ∈ s.sessions := List.get?_mem hgi
    refine ⟨by simpa using hlen, ?_, ?_⟩
    · intro y hy
      rcases List.mem_or_eq_of_mem_set hy with hmem | heq
      · exact hstops y hmem
      · subst heq
        refine Or.inr ⟨by simp, ?_⟩
        rcases hstops x hxmem with ⟨-, h0⟩ | ⟨hnr, -⟩
        · simp [h0]
        · exact absurd hph hnr
    · intro hex
      have hd := hexit hex x hxmem
      rw [hph] at hd
      cases hd
  | finish i x hgi hph =>
    have hxmem : x ∈ s.sessions := List.get?_mem hgi
    refine ⟨by simpa using hlen, ?_, ?_⟩
    · intro y hy
      rcases List.mem_or_eq_of_mem_set hy with hmem | heq
      · exact hstops y hmem
      · subst heq
        rcases hstops x hxmem with ⟨hr, -⟩ | ⟨-, h1⟩
        · rw [hph] at hr
          cases hr
        · exact Or.inr ⟨by simp, h1⟩
    · intro hex
      have hd := hexit hex x hxmem
      rw [hph] at hd
      cases hd
  | exit hw hall =>
    exact ⟨hlen, hstops, fun _ => hall⟩

/-- Every state reachable from the initial shutdown state satisfies the
shutdown invariant. -/
theorem shutdownInv_reaches (n : Nat) (s : Sys)
    (h : Reaches (initSys n) s) : ShutdownInv n s := by
  induction h with
  | refl =>
    refine ⟨List.length_replicate _ _, ?_, ?_⟩
    · intro x hx
      rw [List.eq_of_mem_replicate hx]
      exact Or.inl ⟨rfl, rfl⟩
    · intro hex
      cases hex
  | tail h1 h2 ih =>
    exact shutdownInv_step n _ _ ih h2

/-- C3: in every reachable state in which the main goroutine has exited,
all `n` started sessions have completed — each having invoked
`client.Stop()` exactly once — so main never exits before every session
is done. -/
theorem c3_stop_once_exit_after_all (n : Nat) (s : Sys)
    (h : Reaches (initSys n) s) (hex : s.mphase = MPhase.exited) :
    s.sessions.length = n ∧
    ∀ x ∈ s.sessions, x.phase = SPhase.done ∧ x.stops = 1 := by
  have hinv := shutdownInv_reaches n s h
  refine ⟨hinv.1, fun x hx => ?_⟩
  have hdone := hinv.2.2 hex x hx
  rcases hinv.2.1 x hx with ⟨hr, -⟩ | ⟨-, h1⟩
  · rw [hdone] at hr
    cases hr
  · exact ⟨hdone, h1⟩

/-- C3 witness: a concrete run with one session — signal, deferred stop,
wait-group done, then exit — ends with the session done after exactly
one stop call. -/
theorem c3_stop_once_exit_after_all_witness :
    (Sys.mk true [Sess.mk SPhase.done 1] MPhase.exited).sessions.length
      = 1 ∧
    ∀ x ∈ (Sys.mk true [Sess.mk SPhase.done 1] MPhase.exited).sessions,
      x.phase = SPhase.done ∧ x.stops = 1 := by
  refine c3_stop_once_exit_after_all 1 _ ?_ rfl
  have st1 : Step (initSys 1)
      (Sys.mk true [Sess.mk SPhase.running 0] MPhase.cancelledW) :=
    Step.signal _ rfl
  have st2 : Step (Sys.mk true [Sess.mk SPhase.running 0] MPhase.cancelledW)
      (Sys.mk true [Sess.mk SPhase.stopped 1] MPhase.cancelledW) :=
    Step.stop _ 0 (Sess.mk SPhase.running 0) rfl rfl rfl
  have st3 : Step (Sys.mk true [Sess.mk SPhase.stopped 1] MPhase.cancelledW)
      (Sys.mk true [Sess.mk SPhase.done 1] MPhase.cancelledW) :=
    Step.finish _ 0 (Sess.mk SPhase.stopped 1) rfl rfl
  have st4 : Step (Sys.mk true [Sess.mk SPhase.done 1] MPhase.cancelledW)
      (Sys.mk true [Sess.mk SPhase.done 1] MPhase.exited) :=
    Step.exit _ rfl (by decide)
  exact Relation.ReflTransGen.head st1 (Relation.ReflTransGen.head st2
    (Relation.ReflTransGen.head st3 (Relation.ReflTransGen.single st4)))

end GreedyDhcp
